import Mathlib

/-!
Verification development for `repo_content.py`: a tool that walks a
directory tree, filters entries by glob-style ignore patterns, skips
binary files, and concatenates the remaining text files into one output
file.  The definitions below are a shallow embedding of the Python
source (POSIX path semantics, `/` separator); theorems settle the
specification claims about it.
-/

namespace RepoContent

/-! ### Glob matching (embedding of Python `fnmatch.fnmatch` on POSIX)

`fnmatch` matches a name against a shell-style pattern anchored at both
ends: `*` matches any (possibly empty) sequence of characters, `?` any
single character, `[seq]` a character class with optional `!` negation
and `a-b` ranges; an unterminated `[` is a literal `[`. -/

/-- Scan for the closing `]` of a character class; returns the class
content and the remainder of the pattern, or `none` if no `]` occurs. -/
def findClose : List Char → Option (List Char × List Char)
  | [] => none
  | ']' :: t => some ([], t)
  | c :: t =>
    match findClose t with
    | none => none
    | some (content, rest) => some (c :: content, rest)

/-- Parse the part of a pattern following `[`: an optional leading `!`
(negation), then the class content up to the closing `]` (a `]` in the
first content position is literal).  `none` means the bracket is
unterminated and `[` is to be taken literally. -/
def bracketSplit (cs : List Char) : Option (Bool × List Char × List Char) :=
  let stripped : Bool × List Char :=
    match cs with
    | '!' :: t => (true, t)
    | _ => (false, cs)
  match stripped with
  | (neg, ']' :: t) =>
    match findClose t with
    | none => none
    | some (content, rest) => some (neg, ']' :: content, rest)
  | (neg, other) =>
    match findClose other with
    | none => none
    | some (content, rest) => some (neg, content, rest)

/-- Character membership in a class body, with `a-b` ranges; a `-` that
is first, last, or directly after a range is a literal. -/
def inClass (c : Char) : List Char → Bool
  | a :: '-' :: b :: rest => (a ≤ c && c ≤ b) || inClass c rest
  | a :: rest => (a = c) || inClass c rest
  | [] => false

/-- Anchored glob matching of a name (second argument) against a
pattern (first argument), following `fnmatch.translate` semantics. -/
def globMatch (p : List Char) (s : List Char) : Bool :=
  match p with
  | [] => s.isEmpty
  | c :: pr =>
    if c = '*' then
      globMatch pr s ||
        (match s with
         | [] => false
         | _ :: s' => globMatch (c :: pr) s')
    else if c = '?' then
      match s with
      | [] => false
      | _ :: s' => globMatch pr s'
    else if c = '[' then
      match bracketSplit pr with
      | none =>
        match s with
        | [] => false
        | c' :: s' => (c' = '[') && globMatch pr s'
      | some (neg, content, rest) =>
        match s with
        | [] => false
        | c' :: s' => (inClass c' content != neg) && globMatch rest s'
    else
      match s with
      | [] => false
      | c' :: s' => (c' = c) && globMatch pr s'
termination_by (s.length, p.length)

/-- Embedding of `fnmatch.fnmatch(name, pattern)` on a POSIX system,
where `os.path.normcase` is the identity. -/
def fnmatch (name pattern : String) : Bool :=
  globMatch pattern.data name.data

/-- A pattern with no glob metacharacters (`*`, `?`, `[`): it matches
exactly itself. -/
def literalPat (p : String) : Bool :=
  p.data.all fun c => !(c = '*' || c = '?' || c = '[')

/-! ### Path Filter (embedding of `should_ignore`)

A relative path is modelled as its list of segments, the `parts` of the
`pathlib.Path` built from `os.path.relpath(path, base_dir)`; every
entry the program filters lies strictly below the traversal root, so
each segment is a plain name containing no separator.  Joining segments
with `/` gives back the relative-path string, and `os.path.basename` of
it is the last segment. -/

/-- Join path segments with the POSIX separator, as `os.path.join` of
the parts does. -/
def joinSegs (segs : List String) : String :=
  String.intercalate "/" segs

/-- Embedding of `should_ignore(path, base_dir, ignore_patterns)` where
`segs` are the segments of the path relative to `base_dir`.  The source
tests, per pattern: the full relative path, its basename, and every
partial path `os.path.join(*parts[:i+1])` for `i` in
`range(len(parts))`. -/
def should_ignore (segs : List String) (ignore_patterns : List String) : Bool :=
  let rel_path := joinSegs segs
  ignore_patterns.any fun pattern =>
    fnmatch rel_path pattern ||
    fnmatch (segs.getLastD "") pattern ||
    (List.range segs.length).any fun i =>
      fnmatch (joinSegs (segs.take (i + 1))) pattern

/-- The Path Filter's matching rule as the specification words it: some
pattern matches the full relative path, or the base name alone, or a
path truncated after its first `i + 1` segments. -/
def ignoreSpec (segs ignore_patterns : List String) : Prop :=
  ∃ pattern ∈ ignore_patterns,
    fnmatch (joinSegs segs) pattern = true ∨
    fnmatch (segs.getLastD "") pattern = true ∨
    ∃ i < segs.length, fnmatch (joinSegs (segs.take (i + 1))) pattern = true

/-! ### Binary Detector (embedding of `is_likely_binary`)

The detector reads up to 8192 raw bytes; we embed it as a function of
the byte sample actually read (each byte a `Nat` below 256).  The
Python body runs inside a `try` block whose `except Exception` clause
returns `True`; on an empty sample the expression
`control_chars / len(sample)` raises `ZeroDivisionError`, which that
clause absorbs.  The `Except` value below models the body, the wrapper
applies the handler.  Python compares the float `control_chars /
len(sample)` with the literal `0.1`; for the exact rational value the
comparison is the same for every sample of at most 8192 bytes, since
the two can only disagree within `6e-18` of `1/10` while any count
ratio with denominator at most 8192 differs from `1/10` by at least
`1/81920`. -/

/-- Number of sampled bytes with value below 32 other than tab (9),
newline (10), and carriage return (13): the source's
`sum(1 for c in sample if c < 32 and c not in (9, 10, 13))`. -/
def control_chars (sample : List Nat) : Nat :=
  sample.countP fun c => decide (c < 32 ∧ c ≠ 9 ∧ c ≠ 10 ∧ c ≠ 13)

/-- The body of the `try` block of `is_likely_binary`: null byte means
binary, an empty sample raises `ZeroDivisionError` (the `error` case),
otherwise the control-character fraction is compared with 0.1. -/
def is_likely_binary_body (sample : List Nat) : Except Unit Bool :=
  if sample.contains 0 then Except.ok true
  else if sample.length = 0 then Except.error ()
  else if ((control_chars sample : ℚ) / (sample.length : ℚ) > 1 / 10) then Except.ok true
  else Except.ok false

/-- Embedding of `is_likely_binary` on the sampled bytes: the body's
result, with any raised exception converted to `True` by the
`except Exception: return True` handler. -/
def is_likely_binary (sample : List Nat) : Bool :=
  match is_likely_binary_body sample with
  | Except.ok b => b
  | Except.error _ => true

/-! ### Ignore-Pattern Loader (embedding of `read_repoignore`)

The `.repoignore` file either exists with some content or is absent;
we pass that as an `Option String`. -/

/-- The fixed built-in ignore list of `read_repoignore`, verbatim. -/
def default_ignores : List String :=
  ["node_modules",
   "vendor",
   ".vscode",
   "bootstrap/cache",
   "storage",
   "public/vendor",
   "public/.htaccess",
   "public/favicon.ico",
   "public/hot",
   "public/robots.txt",
   "database/data",
   "tests",
   ".env",
   ".git",
   "repo_contents.py",
   "repository_contents.txt",
   "artisan",
   "package-lock.json",
   "composer.lock",
   "phpunit.xml",
   "strategy_results",
   "trailing_stop_analysis",
   "50k.csv"]

/-- Characters removed by Python's `str.strip()` with no argument. -/
def isPySpace (c : Char) : Bool :=
  c = ' ' || c = '\t' || c = '\n' || c = '\r' || c = '\x0b' || c = '\x0c'

/-- Embedding of Python `line.strip()`: drop leading and trailing
whitespace characters. -/
def pyStrip (s : String) : String :=
  String.mk (((s.data.dropWhile isPySpace).reverse.dropWhile isPySpace).reverse)

/-- Embedding of `read_repoignore(directory)`: the argument is the
content of `<directory>/.repoignore` when that file exists, `none`
when it is absent.  The source copies the defaults, and when the file
exists extends them with `[line.strip() for line in f.readlines() if
line.strip()]`; splitting the content at newlines and stripping each
piece yields the same list, since `strip` removes the line terminator
`readlines` keeps and blank pieces are filtered either way. -/
def read_repoignore (repoignore : Option String) : List String :=
  let ignore_patterns := default_ignores
  match repoignore with
  | none => ignore_patterns
  | some content =>
      let custom_patterns :=
        ((content.splitOn "\n").map pyStrip).filter fun line => line ≠ ""
      ignore_patterns ++ custom_patterns

/-! ### Tree Walker / Concatenator (embedding of `process_directory`)

The directory tree is an inductive value: a file carries the byte
sample its binary check reads and the outcome of reading it as UTF-8
text (content on success, the exception's message on a decode or I/O
failure); a directory carries its children in listing order.  `os.walk`
visits a directory top-down: the loop body first prunes the ignored
subdirectory names in place, then handles the files of the current
directory, and the walk then descends into each kept subdirectory in
order.  Output is the concatenation of everything written to
`output_file`. -/

/-- Outcome of `open(file_path, 'r', encoding='utf-8').read()`:
content on success, the exception text of the `UnicodeDecodeError` or
`IOError` on failure. -/
structure FileData where
  bytes : List Nat
  text : Except String String
deriving Repr

/-- A filesystem entry: a file with its read outcomes, or a directory
with its children in listing order. -/
inductive FSEntry where
  | file (name : String) (d : FileData)
  | dir (name : String) (children : List FSEntry)
deriving Repr

/-- True when the content's final character is a newline: Python's
`content.endswith('\n')`. -/
def endsNL (content : String) : Bool :=
  content.data.getLast? = some '\n'

/-- What the body of the file loop writes for one file at relative
path `rel`: nothing when the file is the output file itself
(`file_path.resolve() == output_path.resolve()`, here: equal relative
segments `out`), is ignored, or looks binary; otherwise the header
line, the `=` separator line of length `len(rel_path) + 6`, the
content newline-terminated, and a blank line — or the skip banner with
the error text truncated to `str(e)[:100]`. -/
def processFile (pats out rel : List String) (d : FileData) : String :=
  if rel = out then ""
  else if should_ignore rel pats then ""
  else if is_likely_binary d.bytes then ""
  else
    match d.text with
    | Except.ok content =>
        let rel_path := joinSegs rel
        "File: " ++ rel_path ++ "\n" ++
          String.mk (List.replicate (rel_path.length + 6) '=') ++ "\n" ++
          content ++
          (if endsNL content then "" else "\n") ++ "\n"
    | Except.error e =>
        "File: " ++ joinSegs rel ++ " (Skipped: " ++ String.mk (e.data.take 100) ++ ")\n\n"

/-- Output written for the files lying directly in a directory whose
path relative to the root is `rel`, in listing order. -/
def walkFiles (pats out : List String) : List String → List FSEntry → String
  | _, [] => ""
  | rel, FSEntry.file n d :: es =>
      processFile pats out (rel ++ [n]) d ++ walkFiles pats out rel es
  | rel, FSEntry.dir _ _ :: es => walkFiles pats out rel es

/-- Output written below the subdirectories of a directory at `rel`:
a subdirectory matched by the Path Filter is pruned from `dirs` and
contributes nothing; a kept one contributes its own files and then its
subtree, before the later siblings. -/
def walkDirs (pats out : List String) : List String → List FSEntry → String
  | _, [] => ""
  | rel, FSEntry.file _ _ :: es => walkDirs pats out rel es
  | rel, FSEntry.dir n cs :: es =>
      (if should_ignore (rel ++ [n]) pats then ""
       else walkFiles pats out (rel ++ [n]) cs ++ walkDirs pats out (rel ++ [n]) cs) ++
      walkDirs pats out rel es

/-- Relative paths of the directories below `rel` that `os.walk`
enters (yields as a `root`), given the in-place pruning of `dirs`. -/
def visited (pats : List String) : List String → List FSEntry → List (List String)
  | _, [] => []
  | rel, FSEntry.file _ _ :: es => visited pats rel es
  | rel, FSEntry.dir n cs :: es =>
      (if should_ignore (rel ++ [n]) pats then []
       else (rel ++ [n]) :: visited pats (rel ++ [n]) cs) ++
      visited pats rel es

/-- Relative segments of the destination `repository_contents.txt`,
created by `main` directly inside the traversal root. -/
def outputRel : List String :=
  ["repository_contents.txt"]

/-- Embedding of `main`'s output production on a root whose children
are `children`: the destination is opened with mode `'w'`, so the
previous destination content `oldDest` is discarded, the fixed header
block is written, and `process_directory` appends the body —
the root's own files first, then the kept subtrees. -/
def mainRun (dirStr ts : String) (_oldDest : String) (pats : List String)
    (children : List FSEntry) : String :=
  "Repository Contents\n" ++
  "==================\n" ++
  "Directory: " ++ dirStr ++ "\n" ++
  "Generated on: " ++ ts ++ "\n\n" ++
  walkFiles pats outputRel [] children ++ walkDirs pats outputRel [] children

/-! ### Helper lemmas -/

/-- A pattern without glob metacharacters matches exactly itself. -/
theorem globMatch_literal (p : List Char)
    (hp : ∀ c ∈ p, c ≠ '*' ∧ c ≠ '?' ∧ c ≠ '[') :
    ∀ s : List Char, globMatch p s = true ↔ s = p := by
  induction p with
  | nil =>
    intro s
    simp [globMatch, List.isEmpty_iff]
  | cons c pr ih =>
    intro s
    have hc : c ≠ '*' ∧ c ≠ '?' ∧ c ≠ '[' := hp c (by simp)
    rw [globMatch.eq_def]
    dsimp only
    rw [if_neg hc.1, if_neg hc.2.1, if_neg hc.2.2]
    cases s with
    | nil => simp
    | cons c' s' =>
      have hrec := ih (fun d hd => hp d (List.mem_cons_of_mem c hd)) s'
      simp [hrec, List.cons.injEq]

/-- On a wildcard-free pattern, `fnmatch` is equality with the
pattern. -/
theorem fnmatch_literal (p : String) (hp : literalPat p = true) (s : String) :
    fnmatch s p = decide (s = p) := by
  have hchars : ∀ c ∈ p.data, c ≠ '*' ∧ c ≠ '?' ∧ c ≠ '[' := by
    intro c hcp
    have := List.all_eq_true.mp hp c hcp
    simpa [and_assoc] using this
  have hiff := globMatch_literal p.data hchars s.data
  by_cases h : s = p
  · subst h
    have hm : globMatch s.data s.data = true :=
      (globMatch_literal s.data hchars s.data).mpr rfl
    simp [fnmatch, hm]
  · have hd : s.data ≠ p.data := fun hdd => h (by cases s; cases p; simp_all)
    rw [decide_eq_false h, Bool.eq_false_iff]
    intro habs
    exact hd (hiff.mp habs)

/-- The Path Filter returns `true` exactly when its matching rule, as
an existential over the pattern set, holds. -/
theorem should_ignore_iff (segs ignore_patterns : List String) :
    should_ignore segs ignore_patterns = true ↔ ignoreSpec segs ignore_patterns := by
  simp [should_ignore, ignoreSpec, List.any_eq_true, List.mem_range, or_assoc]

/-- An entry whose final segment is a wildcard-free pattern of the set
is ignored through the basename rule. -/
theorem should_ignore_append_literal (pats : List String) (p : String) (hp : p ∈ pats)
    (hlit : literalPat p = true) (rel : List String) :
    should_ignore (rel ++ [p]) pats = true := by
  rw [should_ignore_iff]
  refine ⟨p, hp, Or.inr (Or.inl ?_)⟩
  have h1 : (rel ++ [p]).getLastD "" = p := by
    simp [List.getLastD_eq_getLast?, List.getLast?_concat]
  rw [h1, fnmatch_literal _ hlit]
  simp

/-- An entry whose first segment is a wildcard-free pattern of the set
is ignored through the one-segment partial-path rule. -/
theorem should_ignore_head_literal (pats : List String) (p : String) (hp : p ∈ pats)
    (hlit : literalPat p = true) (rest : List String) :
    should_ignore (p :: rest) pats = true := by
  rw [should_ignore_iff]
  refine ⟨p, hp, Or.inr (Or.inr ⟨0, by simp, ?_⟩)⟩
  have h1 : joinSegs ((p :: rest).take (0 + 1)) = p := rfl
  rw [h1, fnmatch_literal _ hlit]
  simp

/-- No directory entered by the pruned walk has a wildcard-free
ignored pattern among the segments of its relative path. -/
theorem visited_avoids (pats : List String) (p : String)
    (hp : p ∈ pats) (hlit : literalPat p = true) :
    ∀ (rel : List String) (es : List FSEntry), p ∉ rel → ∀ v ∈ visited pats rel es, p ∉ v := by
  intro rel es
  induction rel, es using visited.induct pats with
  | case1 rel =>
    intro _ v hv
    simp [visited] at hv
  | case2 rel n d es ih =>
    intro hrel v hv
    rw [visited] at hv
    exact ih hrel v hv
  | case3 rel n cs es ih1 ih2 =>
    intro hrel v hv
    rw [visited] at hv
    rcases List.mem_append.mp hv with hv1 | hv2
    · by_cases hig : should_ignore (rel ++ [n]) pats = true
      · simp [hig] at hv1
      · have hnp : n ≠ p := by
          intro he
          subst he
          exact hig (should_ignore_append_literal pats n hp hlit rel)
        have hrel' : p ∉ rel ++ [n] := by
          simp [List.mem_append, hrel, Ne.symm hnp]
        simp [hig] at hv1
        rcases hv1 with rfl | hv1
        · exact hrel'
        · exact ih1 hrel' v hv1
    · exact ih2 hrel v hv2

/-- A non-empty sample without null bytes and without control
characters is classified as text. -/
theorem control_free_is_text (sample : List Nat) (h0 : sample.contains 0 = false)
    (hlen : sample.length ≠ 0) (hc : control_chars sample = 0) :
    is_likely_binary sample = false := by
  have hnf : ¬((control_chars sample : ℚ) / (sample.length : ℚ) > 1 / 10) := by
    rw [hc]
    norm_num
  unfold is_likely_binary is_likely_binary_body
  rw [if_neg (by rw [h0]; simp), if_neg hlen, if_neg hnf]

/-! ### Claims -/

/-- Claim C1: for every path and ignore-pattern set, the Path Filter
returns `true` exactly when some pattern glob-matches the full
relative path, or the final segment (base name) alone, or some partial
path built by joining the segments one at a time from the root; glob
matching is anchored shell-style matching of the whole string. -/
theorem path_filter_characterization (segs ignore_patterns : List String) :
    should_ignore segs ignore_patterns = true ↔ ignoreSpec segs ignore_patterns :=
  should_ignore_iff segs ignore_patterns

/-- Claim C2: on a non-empty byte sample the Binary Detector reports
binary exactly when the sample holds a null byte or the fraction of
control characters (value below 32, excluding tab, newline, carriage
return) strictly exceeds one tenth; with no null byte and a fraction
of at most one tenth the file counts as text. -/
theorem binary_detector_threshold (sample : List Nat) (h : sample ≠ []) :
    (is_likely_binary sample = true ↔
      0 ∈ sample ∨
        (control_chars sample : ℚ) / (sample.length : ℚ) > 1 / 10) ∧
    (0 ∉ sample →
      (control_chars sample : ℚ) / (sample.length : ℚ) ≤ 1 / 10 →
      is_likely_binary sample = false) := by
  have hlen : sample.length ≠ 0 := by simpa using h
  by_cases h0 : sample.contains 0 = true
  · have hbody : is_likely_binary_body sample = Except.ok true := by
      unfold is_likely_binary_body
      rw [if_pos h0]
    have hmem : 0 ∈ sample := List.elem_iff.mp h0
    constructor
    · exact iff_of_true (by simp [is_likely_binary, hbody]) (Or.inl hmem)
    · intro habs
      exact absurd hmem habs
  · have hnmem : 0 ∉ sample := fun hm => h0 (List.elem_iff.mpr hm)
    by_cases hf : (control_chars sample : ℚ) / (sample.length : ℚ) > 1 / 10
    · have hbody : is_likely_binary_body sample = Except.ok true := by
        unfold is_likely_binary_body
        rw [if_neg h0, if_neg hlen, if_pos hf]
      constructor
      · exact iff_of_true (by simp [is_likely_binary, hbody]) (Or.inr hf)
      · intro _ hle
        exact absurd hf (not_lt.mpr hle)
    · have hbody : is_likely_binary_body sample = Except.ok false := by
        unfold is_likely_binary_body
        rw [if_neg h0, if_neg hlen, if_neg hf]
      constructor
      · exact iff_of_false (by simp [is_likely_binary, hbody]) (not_or.mpr ⟨hnmem, hf⟩)
      · intro _ _
        simp [is_likely_binary, hbody]

/-- Witness for C2 at the one-byte sample `[72]`. -/
theorem binary_detector_threshold_witness :
    ([72] : List Nat) ≠ [] ∧
    (is_likely_binary [72] = true ↔
      0 ∈ ([72] : List Nat) ∨
        (control_chars [72] : ℚ) / (([72] : List Nat).length : ℚ) > 1 / 10) :=
  ⟨by decide, (binary_detector_threshold [72] (by decide)).1⟩

/-- Claim C3 counterexample: on the empty byte sample the Binary
Detector returns `true` (binary), not `false` as the claim states. -/
theorem empty_sample_not_text : is_likely_binary [] = true := rfl

/-- Claim C3 (amended): on the empty byte sample the fraction
computation raises `ZeroDivisionError`, the catch-all handler absorbs
it, and the Binary Detector classifies the file as binary. -/
theorem empty_sample_classified_binary :
    is_likely_binary_body [] = Except.error () ∧ is_likely_binary [] = true :=
  ⟨rfl, rfl⟩

/-- Claim C4: for a wildcard-free directory-name pattern in the set,
a directory of that name contributes nothing to the output and nothing
to the visited-directory trace (it is pruned before descent, so its
subtree — whatever it holds — is never entered), and no directory the
walk enters has that name among its relative-path segments. -/
theorem dir_pattern_pruning (pats out : List String) (p : String)
    (hp : p ∈ pats) (hlit : literalPat p = true) :
    (∀ rel cs es, walkDirs pats out rel (FSEntry.dir p cs :: es) = walkDirs pats out rel es) ∧
    (∀ rel cs es, visited pats rel (FSEntry.dir p cs :: es) = visited pats rel es) ∧
    (∀ es v, v ∈ visited pats [] es → p ∉ v) := by
  have hig := should_ignore_append_literal pats p hp hlit
  refine ⟨?_, ?_, ?_⟩
  · intro rel cs es
    simp [walkDirs, hig rel]
  · intro rel cs es
    simp [visited, hig rel]
  · intro es v hv
    exact visited_avoids pats p hp hlit [] es (by simp) v hv

/-- Witness for C4: with the built-in patterns, a `node_modules`
directory holding a file is pruned whole from the walk's output. -/
theorem dir_pattern_pruning_witness :
    ("node_modules" ∈ default_ignores ∧ literalPat "node_modules" = true) ∧
    walkDirs default_ignores outputRel []
        (FSEntry.dir "node_modules"
          [FSEntry.file "dep.js" ⟨[118], Except.ok "x\n"⟩] :: []) =
      walkDirs default_ignores outputRel [] [] :=
  ⟨⟨by decide, by decide⟩,
    (dir_pattern_pruning default_ignores outputRel "node_modules" (by decide) (by decide)).1
      [] [FSEntry.file "dep.js" ⟨[118], Except.ok "x\n"⟩] []⟩

/-- Claim C5 counterexample: the entry `a/node_modules/foo.js` passes
through a directory named exactly `node_modules`, yet the Path Filter
with pattern set `[node_modules]` does not flag it — the partial paths
tested are `a`, `a/node_modules`, `a/node_modules/foo.js`, none of
which equals the pattern, and the base name is `foo.js`. -/
theorem nested_dir_entry_not_ignored :
    should_ignore ["a", "node_modules", "foo.js"] ["node_modules"] = false := by
  have hlit : literalPat "node_modules" = true := by decide
  rw [Bool.eq_false_iff]
  intro h
  rcases (should_ignore_iff _ _).mp h with ⟨pattern, hmem, hcase⟩
  simp only [List.mem_singleton] at hmem
  subst hmem
  rcases hcase with h1 | h2 | ⟨i, hi, h3⟩
  · rw [fnmatch_literal _ hlit] at h1
    exact absurd (of_decide_eq_true h1) (by decide)
  · rw [fnmatch_literal _ hlit] at h2
    exact absurd (of_decide_eq_true h2) (by decide)
  · have hi3 : i < 3 := by simpa using hi
    interval_cases i <;>
      (rw [fnmatch_literal _ hlit] at h3; exact absurd (of_decide_eq_true h3) (by decide))

/-- Claim C5 (amended): for a wildcard-free single-directory-name
pattern in the set, the Path Filter alone flags every entry whose
relative path starts with that name — the one-segment partial path
equals the pattern.  (For a matching directory nested deeper the
filter does not flag the descendants themselves; during traversal the
directory is instead pruned through the basename rule.) -/
theorem top_segment_pattern_ignores (pats : List String) (p : String)
    (hp : p ∈ pats) (hlit : literalPat p = true) (rest : List String) :
    should_ignore (p :: rest) pats = true :=
  should_ignore_head_literal pats p hp hlit rest

/-- Witness for the amended C5: `node_modules/foo.js` is flagged by
the pattern set `[node_modules]`. -/
theorem top_segment_pattern_ignores_witness :
    ("node_modules" ∈ ["node_modules"] ∧ literalPat "node_modules" = true) ∧
    should_ignore ["node_modules", "foo.js"] ["node_modules"] = true :=
  ⟨⟨by decide, by decide⟩,
    top_segment_pattern_ignores ["node_modules"] "node_modules" (by decide) (by decide) ["foo.js"]⟩

/-- Claim C6: a candidate file that passes the self-exclusion, ignore
and binary checks but whose text read fails writes exactly the banner
`File: <relative-path> (Skipped: <error truncated to 100 characters>)`
followed by a blank line, and the walk continues with the remaining
entries unchanged. -/
theorem read_error_skip_banner (pats out rel : List String) (n : String)
    (d : FileData) (es : List FSEntry) (e : String)
    (hself : rel ++ [n] ≠ out)
    (hig : should_ignore (rel ++ [n]) pats = false)
    (hbin : is_likely_binary d.bytes = false)
    (herr : d.text = Except.error e) :
    walkFiles pats out rel (FSEntry.file n d :: es) =
      ("File: " ++ joinSegs (rel ++ [n]) ++ " (Skipped: " ++ String.mk (e.data.take 100) ++ ")\n\n") ++
        walkFiles pats out rel es ∧
    (String.mk (e.data.take 100)).length ≤ 100 := by
  constructor
  · simp [walkFiles, processFile, hself, hig, hbin, herr]
  · exact List.length_take_le _ _

/-- Witness for C6: a file whose read fails with message `boom`
produces its banner and the walk goes on. -/
theorem read_error_skip_banner_witness :
    (([] : List String) ++ ["broken.txt"] ≠ outputRel ∧
      should_ignore (([] : List String) ++ ["broken.txt"]) [] = false ∧
      is_likely_binary [104] = false ∧
      (FileData.mk [104] (Except.error "boom")).text = Except.error "boom") ∧
    walkFiles [] outputRel [] (FSEntry.file "broken.txt" (FileData.mk [104] (Except.error "boom")) :: []) =
      ("File: " ++ joinSegs (([] : List String) ++ ["broken.txt"]) ++ " (Skipped: " ++
          String.mk ("boom".data.take 100) ++ ")\n\n") ++
        walkFiles [] outputRel [] [] :=
  ⟨⟨by decide, rfl, control_free_is_text [104] rfl (by decide) (by decide), rfl⟩,
    (read_error_skip_banner [] outputRel [] "broken.txt"
      (FileData.mk [104] (Except.error "boom")) [] "boom"
      (by decide) rfl (control_free_is_text [104] rfl (by decide) (by decide)) rfl).1⟩

/-- Claim C7: a successfully read file writes, in order, the header
line, a separator line of `=` of length equal to the relative path's
length plus six, the content, a newline exactly when the content does
not already end with one, and a final blank-line newline — so a file
without a trailing newline is followed by exactly one newline before
the separating blank line. -/
theorem file_block_format (pats out rel : List String) (n : String)
    (d : FileData) (es : List FSEntry) (content : String)
    (hself : rel ++ [n] ≠ out)
    (hig : should_ignore (rel ++ [n]) pats = false)
    (hbin : is_likely_binary d.bytes = false)
    (hok : d.text = Except.ok content) :
    walkFiles pats out rel (FSEntry.file n d :: es) =
      ("File: " ++ joinSegs (rel ++ [n]) ++ "\n" ++
        String.mk (List.replicate ((joinSegs (rel ++ [n])).length + 6) '=') ++ "\n" ++
        content ++ (if endsNL content then "" else "\n") ++ "\n") ++
        walkFiles pats out rel es ∧
    (String.mk (List.replicate ((joinSegs (rel ++ [n])).length + 6) '=')).length
      = (joinSegs (rel ++ [n])).length + 6 ∧
    (endsNL content = false →
      processFile pats out (rel ++ [n]) d =
        "File: " ++ joinSegs (rel ++ [n]) ++ "\n" ++
          String.mk (List.replicate ((joinSegs (rel ++ [n])).length + 6) '=') ++ "\n" ++
          content ++ "\n" ++ "\n") ∧
    (endsNL content = true →
      processFile pats out (rel ++ [n]) d =
        "File: " ++ joinSegs (rel ++ [n]) ++ "\n" ++
          String.mk (List.replicate ((joinSegs (rel ++ [n])).length + 6) '=') ++ "\n" ++
          content ++ "\n") := by
  refine ⟨?_, ?_, ?_, ?_⟩
  · simp [walkFiles, processFile, hself, hig, hbin, hok]
  · show (List.replicate ((joinSegs (rel ++ [n])).length + 6) '=').length = _
    simp
  · intro hnl
    simp [processFile, hself, hig, hbin, hok, hnl]
  · intro hnl
    simp [processFile, hself, hig, hbin, hok, hnl]

/-- Witness for C7: a file whose content `hi` lacks a trailing
newline gets its block with exactly one inserted newline. -/
theorem file_block_format_witness :
    (([] : List String) ++ ["a.txt"] ≠ outputRel ∧
      should_ignore (([] : List String) ++ ["a.txt"]) [] = false ∧
      is_likely_binary [104] = false ∧
      (FileData.mk [104] (Except.ok "hi")).text = Except.ok "hi") ∧
    walkFiles [] outputRel [] (FSEntry.file "a.txt" (FileData.mk [104] (Except.ok "hi")) :: []) =
      ("File: " ++ joinSegs (([] : List String) ++ ["a.txt"]) ++ "\n" ++
        String.mk (List.replicate ((joinSegs (([] : List String) ++ ["a.txt"])).length + 6) '=') ++ "\n" ++
        "hi" ++ (if endsNL "hi" then "" else "\n") ++ "\n") ++
        walkFiles [] outputRel [] [] :=
  ⟨⟨by decide, rfl, control_free_is_text [104] rfl (by decide) (by decide), rfl⟩,
    (file_block_format [] outputRel [] "a.txt"
      (FileData.mk [104] (Except.ok "hi")) [] "hi"
      (by decide) rfl (control_free_is_text [104] rfl (by decide) (by decide)) rfl).1⟩

/-- Claim C8: the Ignore-Pattern Loader returns exactly the built-in
list when `.repoignore` is absent, and otherwise the built-ins
followed by the file's whitespace-trimmed non-blank lines in file
order: the built-ins stay an unchanged initial block, and everything
after them is a non-blank stripped line of the file. -/
theorem repoignore_loader_behavior :
    read_repoignore none = default_ignores ∧
    (∀ content, read_repoignore (some content) =
      default_ignores ++ (((content.splitOn "\n").map pyStrip).filter fun line => line ≠ "")) ∧
    (∀ content, (read_repoignore (some content)).take default_ignores.length = default_ignores) ∧
    (∀ content line, line ∈ (read_repoignore (some content)).drop default_ignores.length →
      line ≠ "" ∧ line ∈ (content.splitOn "\n").map pyStrip) := by
  refine ⟨rfl, fun _ => rfl, fun content => ?_, fun content line hline => ?_⟩
  · show (default_ignores ++ _).take default_ignores.length = default_ignores
    exact List.take_left _ _
  · have hmem : line ∈ ((content.splitOn "\n").map pyStrip).filter fun l => l ≠ "" := by
      have hd : (read_repoignore (some content)).drop default_ignores.length =
          ((content.splitOn "\n").map pyStrip).filter fun l => l ≠ "" := by
        show (default_ignores ++ _).drop default_ignores.length = _
        exact List.drop_left _ _
      rwa [hd] at hline
    have hm := List.mem_filter.mp hmem
    exact ⟨by simpa using hm.2, hm.1⟩

/-- Claim C9: a file whose resolved path equals the destination is
skipped before the ignore and binary checks — it writes nothing for
any pattern set and any file data — and `main` opens the destination
in write mode, so the produced destination content never depends on
what the old destination file held. -/
theorem output_self_exclusion :
    (∀ (pats out : List String) (d : FileData), processFile pats out out d = "") ∧
    (∀ (pats : List String) (d : FileData) (es : List FSEntry),
      walkFiles pats outputRel [] (FSEntry.file "repository_contents.txt" d :: es) =
        walkFiles pats outputRel [] es) ∧
    (∀ (dirStr ts old1 old2 : String) (pats : List String) (children : List FSEntry),
      mainRun dirStr ts old1 pats children = mainRun dirStr ts old2 pats children) := by
  refine ⟨?_, ?_, ?_⟩
  · intro pats out d
    simp [processFile]
  · intro pats d es
    simp [walkFiles, processFile, outputRel]
  · intro dirStr ts old1 old2 pats children
    rfl

/-- Claim C10: the Path Filter is monotone in the pattern set — when
every pattern of `P` also occurs in `Q`, anything `P` flags, `Q`
flags. -/
theorem path_filter_monotone (P Q : List String) (hsub : ∀ p ∈ P, p ∈ Q)
    (segs : List String) (h : should_ignore segs P = true) :
    should_ignore segs Q = true := by
  rw [should_ignore_iff] at h ⊢
  rcases h with ⟨pattern, hmem, hcase⟩
  exact ⟨pattern, hsub pattern hmem, hcase⟩

/-- Witness for C10: extending the singleton set `[node_modules]`
keeps the entry `node_modules` excluded. -/
theorem path_filter_monotone_witness :
    ("node_modules" ∈ ["node_modules", "*.log"]) ∧
    should_ignore ["node_modules"] ["node_modules"] = true ∧
    should_ignore ["node_modules"] ["node_modules", "*.log"] = true := by
  have h1 : should_ignore ["node_modules"] ["node_modules"] = true :=
    should_ignore_head_literal ["node_modules"] "node_modules" (by decide) (by decide) []
  exact ⟨by decide, h1,
    path_filter_monotone ["node_modules"] ["node_modules", "*.log"] (by decide) ["node_modules"] h1⟩

end RepoContent
